import Mathlib

/-!
Shallow embedding of the active-response dispatch logic of
`src/src/analysisd/alerts/exec.c` (function `OS_Exec`), together with
theorems about its ignore-list filtering, locality classification,
message formats and error reporting.

C strings are modelled as `List Char`; the two Unix-socket sends are
modelled by two Boolean oracles (`execqOk`, `arqOk`) saying whether the
write succeeds, and the observable behaviour of one call is the list of
messages attempted on each queue together with a disposition/error
result (an early `return` is `Suppressed`; a `merror` log after a failed
send is the corresponding queue-failure error).
-/

namespace ARExec

/-- C strings (NUL-free contents). -/
abbrev CStr := List Char

/-- Semantics of `rindex(s, c)` followed by `ip++`: the characters strictly
after the last occurrence of `c` in `s`, or `none` when `c` does not occur. -/
def rindexAfter (c : Char) : CStr → Option CStr
  | [] => none
  | a :: rest =>
    match rindexAfter c rest with
    | some t => some t
    | none => if a = c then some rest else none

/-- The "Cleaning the IP" block of `OS_Exec`: `ip = rindex(lf->srcip, ':')`,
`ip++` on success, otherwise `ip = lf->srcip`. -/
def cleanIP (srcip : CStr) : CStr :=
  match rindexAfter ':' srcip with
  | some t => t
  | none => srcip

/-- Modelled from the spec: the locality enum of an active-response rule
(`ServerOnly` / `RemoteAgent` in the spec). The source compares
`ar->location` against the constants `AS_ONLY` and `REMOTE_AGENT` declared in
`active-response.h`, which is not part of this fragment; the spec's data
model gives the enum exactly these two values. -/
inductive Location where
  | AS_ONLY
  | REMOTE_AGENT
deriving DecidableEq

/-- Modelled from the spec: the single-character wire encoding of a locality
value (the `%c` conversion applied to `ar->location` in the forward-path
`snprintf`). The spec fixes `RemoteAgent ↦ 'R'` in its example and leaves the
other symbol to the external protocol contract. -/
def localityChar : Location → Char
  | .AS_ONLY => 'S'
  | .REMOTE_AGENT => 'R'

/-- The fields of `Eventinfo` read by `OS_Exec`: `srcip` (the spec's
`sourceAddress`), `location` (the spec's `sourceLocation`) and `user`. -/
structure Eventinfo where
  srcip : CStr
  location : CStr
  user : CStr

/-- The fields of `active_response` read by `OS_Exec`: `name`, `location`
(the locality enum) and `agent_id`. -/
structure ActiveResponse where
  name : CStr
  location : Location
  agent_id : CStr

/-- The fields of the global `Config` read by `OS_Exec`: the ignore list
`ar_ignore` (a NULL-terminated array of strings, modelled as a list) and the
feature flags `local_ar` and `remote_ar`. -/
structure Config where
  ar_ignore : List CStr
  local_ar : Bool
  remote_ar : Bool

/-- The ignore-list walk: `while(*ar_ignore)` comparing each entry to
`lf->srcip` with `strcmp`, returning (true) on the first match. -/
def ignoredScan (srcip : CStr) : List CStr → Bool
  | [] => false
  | e :: rest => if e = srcip then true else ignoredScan srcip rest

/-- Modelled from the spec: `OS_MAXSTR` is the protocol-defined maximum
record size, defined in the shared headers that are not part of this
fragment. Both `snprintf` calls pass `OS_MAXSTR` as their size bound, so at
most `OS_MAXSTR - 1` characters of the formatted message are kept. -/
def OS_MAXSTR : Nat := 1024

/-- Truncation performed by `snprintf(exec_msg, OS_MAXSTR, ...)`: at most
`OS_MAXSTR - 1` characters are written (the last byte is the NUL). -/
def snprintfTrunc (s : CStr) : CStr := s.take (OS_MAXSTR - 1)

/-- The local-path message: `snprintf(exec_msg, OS_MAXSTR, "%s %s %s",
ar->name, lf->user, ip)`. -/
def localMsg (name user ip : CStr) : CStr :=
  snprintfTrunc (name ++ ' ' :: user ++ ' ' :: ip)

/-- The forward-path message: `snprintf(exec_msg, OS_MAXSTR,
"%s %c %s %s %s %s", lf->location, ar->location, ar->agent_id, ar->name,
lf->user, ip)`. -/
def forwardMsg (location : CStr) (locChar : Char) (agentId name user ip : CStr) : CStr :=
  snprintfTrunc (location ++ ' ' :: locChar :: ' ' :: agentId ++ ' ' :: name ++ ' ' :: user ++ ' ' :: ip)

/-- The spec's dispositions of one dispatch call. -/
inductive Disposition where
  | Suppressed
  | SentLocal
  | SentForward
deriving DecidableEq

/-- The spec's error kinds: a failed send on the local (`execq`) or forward
(`arq`) queue, reported by `merror` in the source. -/
inductive DispatchError where
  | LocalQueueFailure
  | ForwardQueueFailure
deriving DecidableEq

instance : DecidableEq (Except DispatchError Disposition) := fun a b =>
  match a, b with
  | .ok x, .ok y => if h : x = y then .isTrue (by rw [h]) else .isFalse (by simp_all)
  | .error x, .error y => if h : x = y then .isTrue (by rw [h]) else .isFalse (by simp_all)
  | .ok _, .error _ => .isFalse (by simp)
  | .error _, .ok _ => .isFalse (by simp)

/-- Observable behaviour of one `OS_Exec` call: the messages attempted on
the local queue (`execq`) and on the forward queue (`arq`), and the
resulting disposition or reported error. -/
structure DispatchOutcome where
  execqMsgs : List CStr
  arqMsgs : List CStr
  result : Except DispatchError Disposition
deriving DecidableEq

/-- The locality classification of `OS_Exec`: `(ar->location == AS_ONLY) ||
((ar->location == REMOTE_AGENT) && (index(lf->location, '>') == NULL))`. -/
def isLocal (lf : Eventinfo) (ar : ActiveResponse) : Bool :=
  ar.location == .AS_ONLY ||
    (ar.location == .REMOTE_AGENT && !(lf.location.contains '>'))

/-- Shallow embedding of `OS_Exec(execq, arq, lf, ar)`. The oracles
`execqOk` and `arqOk` give the outcome `OS_SendUnix` would return on the
respective queue. -/
def OS_Exec (cfg : Config) (lf : Eventinfo) (ar : ActiveResponse)
    (execqOk arqOk : Bool) : DispatchOutcome :=
  let ip := cleanIP lf.srcip
  if ignoredScan lf.srcip cfg.ar_ignore then
    ⟨[], [], .ok .Suppressed⟩
  else if isLocal lf ar then
    if !cfg.local_ar then
      ⟨[], [], .ok .Suppressed⟩
    else
      let msg := localMsg ar.name lf.user ip
      if execqOk then ⟨[msg], [], .ok .SentLocal⟩
      else ⟨[msg], [], .error .LocalQueueFailure⟩
  else if cfg.remote_ar then
    let msg := forwardMsg lf.location (localityChar ar.location) ar.agent_id ar.name lf.user ip
    if arqOk then ⟨[], [msg], .ok .SentForward⟩
    else ⟨[], [msg], .error .ForwardQueueFailure⟩
  else
    ⟨[], [], .ok .Suppressed⟩

/-- The result of a dispatch computed without any message formatting; used
to show that truncation never influences the disposition or error. -/
def dispatchResult (cfg : Config) (lf : Eventinfo) (ar : ActiveResponse)
    (execqOk arqOk : Bool) : Except DispatchError Disposition :=
  if ignoredScan lf.srcip cfg.ar_ignore then .ok .Suppressed
  else if isLocal lf ar then
    if !cfg.local_ar then .ok .Suppressed
    else if execqOk then .ok .SentLocal
    else .error .LocalQueueFailure
  else if cfg.remote_ar then
    if arqOk then .ok .SentForward
    else .error .ForwardQueueFailure
  else .ok .Suppressed

/-- Normalization as the spec words it: the substring of the input strictly
after its last `':'` when one is present, the whole input otherwise
(computed here by taking the colon-free tail). -/
def afterLastColonSpec (s : CStr) : CStr :=
  (s.reverse.takeWhile (fun c => !(c = ':' : Bool))).reverse

/-! ### Helper lemmas -/

lemma ignoredScan_eq_true_iff (srcip : CStr) (l : List CStr) :
    ignoredScan srcip l = true ↔ srcip ∈ l := by
  induction l with
  | nil => simp [ignoredScan]
  | cons e rest ih =>
    by_cases h : e = srcip
    · simp [ignoredScan, h]
    · simp [ignoredScan, h, ih]
      intro hc
      exact absurd hc.symm h

lemma isLocal_eq_true_iff (lf : Eventinfo) (ar : ActiveResponse) :
    isLocal lf ar = true ↔
      (ar.location = .AS_ONLY ∨
        (ar.location = .REMOTE_AGENT ∧ ¬ '>' ∈ lf.location)) := by
  cases h : ar.location <;>
    simp [isLocal, h, List.contains, List.elem_eq_mem]

lemma rindexAfter_append_single (c a : Char) (s : CStr) :
    rindexAfter c (s ++ [a]) =
      if a = c then some [] else Option.map (fun t => t ++ [a]) (rindexAfter c s) := by
  induction s with
  | nil => by_cases h : a = c <;> simp [rindexAfter, h]
  | cons b s ih =>
    by_cases h : a = c
    · subst h
      simp [rindexAfter, ih]
    · rcases hs : rindexAfter c s with _ | t <;>
        by_cases hb : b = c <;> simp [rindexAfter, ih, hs, h, hb]

lemma cleanIP_append_single (a : Char) (s : CStr) :
    cleanIP (s ++ [a]) = if a = ':' then [] else cleanIP s ++ [a] := by
  unfold cleanIP
  rw [rindexAfter_append_single]
  rcases hs : rindexAfter ':' s with _ | t <;> by_cases h : a = ':' <;> simp [h, hs]

lemma afterLastColonSpec_append_single (a : Char) (s : CStr) :
    afterLastColonSpec (s ++ [a]) =
      if a = ':' then [] else afterLastColonSpec s ++ [a] := by
  unfold afterLastColonSpec
  by_cases h : a = ':' <;> simp [h]

lemma cleanIP_eq_afterLastColonSpec (s : CStr) :
    cleanIP s = afterLastColonSpec s := by
  induction s using List.reverseRecOn with
  | nil => rfl
  | append_singleton s a ih =>
    rw [cleanIP_append_single, afterLastColonSpec_append_single, ih]

/-! ### Claim theorems -/

/-- C1: with the ignore list not matching and both response channels enabled
and both sends succeeding, `OS_Exec` executes locally (result `SentLocal`,
nothing on the forward queue) exactly when the rule's locality is `AS_ONLY`
(the spec's `ServerOnly`), or it is `REMOTE_AGENT` (the spec's `RemoteAgent`)
and the event's source location does not contain `'>'`; in every other case
the forward path is taken (result `SentForward`, nothing on the local
queue). -/
theorem c1_locality_classification (cfg : Config) (lf : Eventinfo) (ar : ActiveResponse)
    (hig : ignoredScan lf.srcip cfg.ar_ignore = false)
    (hl : cfg.local_ar = true) (hr : cfg.remote_ar = true) :
    ((OS_Exec cfg lf ar true true).result = .ok .SentLocal ∧
        (OS_Exec cfg lf ar true true).arqMsgs = [] ↔
      (ar.location = .AS_ONLY ∨
        (ar.location = .REMOTE_AGENT ∧ ¬ '>' ∈ lf.location))) ∧
    ((OS_Exec cfg lf ar true true).result = .ok .SentForward ∧
        (OS_Exec cfg lf ar true true).execqMsgs = [] ↔
      ¬ (ar.location = .AS_ONLY ∨
        (ar.location = .REMOTE_AGENT ∧ ¬ '>' ∈ lf.location))) := by
  have h := isLocal_eq_true_iff lf ar
  by_cases hloc : isLocal lf ar = true
  · simp [hloc] at h
    simp [OS_Exec, hig, hl, hr, hloc, h]
  · simp [hloc] at h
    simp [OS_Exec, hig, hl, hr, hloc, h]
    exact h.2

/-- C1 witness: a `ServerOnly` rule on a non-ignored event is sent locally. -/
theorem c1_witness :
    (OS_Exec ⟨[], true, true⟩
      ⟨"1.2.3.4".toList, "srv1".toList, "root".toList⟩
      ⟨"block-ip".toList, .AS_ONLY, "001".toList⟩ true true).result =
      .ok .SentLocal :=
  ((c1_locality_classification _ _ _ (by decide) rfl rfl).1.mpr (by decide)).1

/-- C2: an event whose unnormalized `srcip` equals some ignore-list entry is
suppressed: no write reaches either queue and the disposition is
`Suppressed`. -/
theorem c2_ignore_list_suppresses (cfg : Config) (lf : Eventinfo) (ar : ActiveResponse)
    (eOk aOk : Bool) (h : lf.srcip ∈ cfg.ar_ignore) :
    OS_Exec cfg lf ar eOk aOk = ⟨[], [], .ok .Suppressed⟩ := by
  have hig : ignoredScan lf.srcip cfg.ar_ignore = true :=
    (ignoredScan_eq_true_iff _ _).mpr h
  simp [OS_Exec, hig]

/-- C2 witness: an ignored address is suppressed with zero writes. -/
theorem c2_witness :
    OS_Exec ⟨["10.0.0.5".toList], true, true⟩
      ⟨"10.0.0.5".toList, "srv1".toList, "root".toList⟩
      ⟨"block-ip".toList, .REMOTE_AGENT, "001".toList⟩ true true =
      ⟨[], [], .ok .Suppressed⟩ :=
  c2_ignore_list_suppresses _ _ _ true true (by decide)

/-- C5: when the event is not ignored and the branch taken is administratively
disabled (`local_ar` off on the local path, `remote_ar` off on the forward
path), `OS_Exec` is suppressed with zero writes and no error. -/
theorem c5_disabled_channel_suppresses (cfg : Config) (lf : Eventinfo)
    (ar : ActiveResponse) (eOk aOk : Bool)
    (hig : ignoredScan lf.srcip cfg.ar_ignore = false)
    (h : (isLocal lf ar = true ∧ cfg.local_ar = false) ∨
         (isLocal lf ar = false ∧ cfg.remote_ar = false)) :
    OS_Exec cfg lf ar eOk aOk = ⟨[], [], .ok .Suppressed⟩ := by
  rcases h with ⟨h1, h2⟩ | ⟨h1, h2⟩ <;> simp [OS_Exec, hig, h1, h2]

/-- C5 witness: a local-execution rule with local responses disabled is
suppressed. -/
theorem c5_witness :
    OS_Exec ⟨[], false, true⟩
      ⟨"1.2.3.4".toList, "srv1".toList, "root".toList⟩
      ⟨"block-ip".toList, .AS_ONLY, "001".toList⟩ true true =
      ⟨[], [], .ok .Suppressed⟩ :=
  c5_disabled_channel_suppresses _ _ _ true true (by decide) (.inl ⟨by decide, rfl⟩)

/-- C6: on a failing send, `OS_Exec` reports `LocalQueueFailure` on the local
path and `ForwardQueueFailure` on the forward path, attempting the write
exactly once (no retry); on a successful send the result is `SentLocal`
or `SentForward` respectively. -/
theorem c6_failure_reporting (cfg : Config) (lf : Eventinfo) (ar : ActiveResponse)
    (hig : ignoredScan lf.srcip cfg.ar_ignore = false) :
    (isLocal lf ar = true → cfg.local_ar = true → ∀ aOk,
      (OS_Exec cfg lf ar false aOk).result = .error .LocalQueueFailure ∧
      (OS_Exec cfg lf ar false aOk).execqMsgs.length = 1 ∧
      (OS_Exec cfg lf ar false aOk).arqMsgs = [] ∧
      (OS_Exec cfg lf ar true aOk).result = .ok .SentLocal) ∧
    (isLocal lf ar = false → cfg.remote_ar = true → ∀ eOk,
      (OS_Exec cfg lf ar eOk false).result = .error .ForwardQueueFailure ∧
      (OS_Exec cfg lf ar eOk false).arqMsgs.length = 1 ∧
      (OS_Exec cfg lf ar eOk false).execqMsgs = [] ∧
      (OS_Exec cfg lf ar eOk true).result = .ok .SentForward) := by
  constructor
  · intro h1 h2 aOk
    simp [OS_Exec, hig, h1, h2]
  · intro h1 h2 eOk
    simp [OS_Exec, hig, h1, h2]

/-- C6 witness: a failed local send reports `LocalQueueFailure`; the same
call with a succeeding send returns `SentLocal`. -/
theorem c6_witness :
    (OS_Exec ⟨[], true, true⟩
      ⟨"1.2.3.4".toList, "srv1".toList, "root".toList⟩
      ⟨"block-ip".toList, .AS_ONLY, "001".toList⟩ false true).result =
      .error .LocalQueueFailure ∧
    (OS_Exec ⟨[], true, true⟩
      ⟨"1.2.3.4".toList, "srv1".toList, "root".toList⟩
      ⟨"block-ip".toList, .AS_ONLY, "001".toList⟩ true true).result =
      .ok .SentLocal := by
  have h := (c6_failure_reporting ⟨[], true, true⟩
    ⟨"1.2.3.4".toList, "srv1".toList, "root".toList⟩
    ⟨"block-ip".toList, .AS_ONLY, "001".toList⟩ (by decide)).1 (by decide) rfl true
  exact ⟨h.1, h.2.2.2⟩

/-- C7: one `OS_Exec` call attempts at most one queue write in total, over
both queues together. -/
theorem c7_at_most_one_write (cfg : Config) (lf : Eventinfo) (ar : ActiveResponse)
    (eOk aOk : Bool) :
    (OS_Exec cfg lf ar eOk aOk).execqMsgs.length +
      (OS_Exec cfg lf ar eOk aOk).arqMsgs.length ≤ 1 := by
  cases hig : ignoredScan lf.srcip cfg.ar_ignore <;>
  cases hloc : isLocal lf ar <;>
  cases hl : cfg.local_ar <;>
  cases hr : cfg.remote_ar <;>
  cases eOk <;> cases aOk <;>
    simp [OS_Exec, hig, hloc, hl, hr]

/-- C9: every message attempted on either queue is truncated below the
protocol maximum record size `OS_MAXSTR`, and the disposition or error of
the call is exactly `dispatchResult`, which is computed without any message
formatting — so truncation never changes the result or raises an error. -/
theorem c9_truncation_bounded (cfg : Config) (lf : Eventinfo) (ar : ActiveResponse)
    (eOk aOk : Bool) :
    (∀ m : CStr, m ∈ (OS_Exec cfg lf ar eOk aOk).execqMsgs ∨
        m ∈ (OS_Exec cfg lf ar eOk aOk).arqMsgs → m.length < OS_MAXSTR) ∧
    (OS_Exec cfg lf ar eOk aOk).result = dispatchResult cfg lf ar eOk aOk := by
  cases hig : ignoredScan lf.srcip cfg.ar_ignore <;>
  cases hloc : isLocal lf ar <;>
  cases hl : cfg.local_ar <;>
  cases hr : cfg.remote_ar <;>
  cases eOk <;> cases aOk <;>
    simp [OS_Exec, dispatchResult, hig, hloc, hl, hr, localMsg, forwardMsg,
      snprintfTrunc, OS_MAXSTR]

/-- C9 witness: the concrete local message stays below `OS_MAXSTR` and the
result agrees with the format-free `dispatchResult`. -/
theorem c9_witness :
    ("block-ip root 10.0.0.5".toList).length < OS_MAXSTR ∧
    (OS_Exec ⟨[], true, true⟩
      ⟨"10.0.0.5".toList, "srv1".toList, "root".toList⟩
      ⟨"block-ip".toList, .AS_ONLY, "001".toList⟩ true true).result =
      dispatchResult ⟨[], true, true⟩
        ⟨"10.0.0.5".toList, "srv1".toList, "root".toList⟩
        ⟨"block-ip".toList, .AS_ONLY, "001".toList⟩ true true :=
  ⟨(c9_truncation_bounded ⟨[], true, true⟩
      ⟨"10.0.0.5".toList, "srv1".toList, "root".toList⟩
      ⟨"block-ip".toList, .AS_ONLY, "001".toList⟩ true true).1 _ (Or.inl (by decide)),
   (c9_truncation_bounded ⟨[], true, true⟩
      ⟨"10.0.0.5".toList, "srv1".toList, "root".toList⟩
      ⟨"block-ip".toList, .AS_ONLY, "001".toList⟩ true true).2⟩

/-- C3: a non-ignored local dispatch with local responses enabled writes to
the local queue exactly the rule name, the event user and the normalized ip,
joined by single spaces (an empty user leaves an empty field between two
adjacent spaces), provided the formatted message fits the `snprintf`
bound; nothing goes to the forward queue. -/
theorem c3_local_message_format (cfg : Config) (lf : Eventinfo) (ar : ActiveResponse)
    (eOk aOk : Bool)
    (hig : ignoredScan lf.srcip cfg.ar_ignore = false)
    (hloc : isLocal lf ar = true) (hl : cfg.local_ar = true)
    (hfit : ar.name.length + lf.user.length + (cleanIP lf.srcip).length + 2 ≤
      OS_MAXSTR - 1) :
    (OS_Exec cfg lf ar eOk aOk).execqMsgs =
      [ar.name ++ ' ' :: lf.user ++ ' ' :: cleanIP lf.srcip] ∧
    (OS_Exec cfg lf ar eOk aOk).arqMsgs = [] := by
  have hm : localMsg ar.name lf.user (cleanIP lf.srcip) =
      ar.name ++ ' ' :: lf.user ++ ' ' :: cleanIP lf.srcip := by
    unfold localMsg snprintfTrunc
    apply List.take_of_length_le
    simp
    omega
  cases eOk <;> simp [OS_Exec, hig, hloc, hl, hm]

/-- C3 witness: the spec's example local message, byte for byte. -/
theorem c3_witness :
    (OS_Exec ⟨[], true, true⟩
      ⟨"10.0.0.5".toList, "srv1".toList, "root".toList⟩
      ⟨"block-ip".toList, .AS_ONLY, "001".toList⟩ true true).execqMsgs =
      ["block-ip root 10.0.0.5".toList] := by
  have h := c3_local_message_format ⟨[], true, true⟩
    ⟨"10.0.0.5".toList, "srv1".toList, "root".toList⟩
    ⟨"block-ip".toList, .AS_ONLY, "001".toList⟩ true true
    (by decide) (by decide) rfl (by decide)
  exact h.1.trans (by decide)

/-- C4: a non-ignored forwarded dispatch with remote responses enabled writes
to the forward queue exactly the event source location, the single-character
locality encoding, the agent id, the rule name, the event user and the
normalized ip, joined by single spaces (an empty user yields a double
space), provided the formatted message fits the `snprintf` bound; nothing
goes to the local queue. -/
theorem c4_forward_message_format (cfg : Config) (lf : Eventinfo) (ar : ActiveResponse)
    (eOk aOk : Bool)
    (hig : ignoredScan lf.srcip cfg.ar_ignore = false)
    (hloc : isLocal lf ar = false) (hr : cfg.remote_ar = true)
    (hfit : lf.location.length + ar.agent_id.length + ar.name.length +
      lf.user.length + (cleanIP lf.srcip).length + 6 ≤ OS_MAXSTR - 1) :
    (OS_Exec cfg lf ar eOk aOk).arqMsgs =
      [lf.location ++ ' ' :: localityChar ar.location :: ' ' :: ar.agent_id ++
        ' ' :: ar.name ++ ' ' :: lf.user ++ ' ' :: cleanIP lf.srcip] ∧
    (OS_Exec cfg lf ar eOk aOk).execqMsgs = [] := by
  have hm : forwardMsg lf.location (localityChar ar.location) ar.agent_id
      ar.name lf.user (cleanIP lf.srcip) =
      lf.location ++ ' ' :: localityChar ar.location :: ' ' :: ar.agent_id ++
        ' ' :: ar.name ++ ' ' :: lf.user ++ ' ' :: cleanIP lf.srcip := by
    unfold forwardMsg snprintfTrunc
    apply List.take_of_length_le
    simp
    omega
  cases aOk <;> simp [OS_Exec, hig, hloc, hr, hm]

/-- C4 witness: the spec's example forward message with an empty user,
including the double space, for an event relayed through an agent. -/
theorem c4_witness :
    (OS_Exec ⟨[], true, true⟩
      ⟨"10.0.0.5".toList, "(x) 1.2.3.4->agent01".toList, "".toList⟩
      ⟨"block-ip".toList, .REMOTE_AGENT, "007".toList⟩ true true).arqMsgs =
      ["(x) 1.2.3.4->agent01 R 007 block-ip  10.0.0.5".toList] := by
  have h := c4_forward_message_format ⟨[], true, true⟩
    ⟨"10.0.0.5".toList, "(x) 1.2.3.4->agent01".toList, "".toList⟩
    ⟨"block-ip".toList, .REMOTE_AGENT, "007".toList⟩ true true
    (by decide) (by decide) rfl (by decide)
  exact h.1.trans (by decide)

/-- C8 counterexample: the code normalizes `"10.0.0.5:4000"` to `"4000"`
(the substring after the last colon), not to `"10.0.0.5"` as the claim's
example asserts. -/
theorem c8_counterexample :
    cleanIP ("10.0.0.5:4000".toList) = "4000".toList ∧
    cleanIP ("10.0.0.5:4000".toList) ≠ "10.0.0.5".toList := by
  constructor <;> decide

/-- C8 (amended): the normalized ip is the substring of `srcip` strictly
after its last `':'` when one is present and the whole of `srcip` otherwise
(`cleanIP` agrees everywhere with the literally-worded `afterLastColonSpec`);
in particular `"10.0.0.5:4000"` normalizes to `"4000"`, `"10.0.0.5"` to
itself, and `"::ffff:10.0.0.5:4000"` splits on the last colon only, also
giving `"4000"`. -/
theorem c8_normalization_after_last_colon (s : CStr) :
    cleanIP s = afterLastColonSpec s ∧
    cleanIP ("10.0.0.5:4000".toList) = "4000".toList ∧
    cleanIP ("10.0.0.5".toList) = "10.0.0.5".toList ∧
    cleanIP ("::ffff:10.0.0.5:4000".toList) = "4000".toList :=
  ⟨cleanIP_eq_afterLastColonSpec s, by decide, by decide, by decide⟩

/-- C10: a `srcip` ending in `':'` normalizes to the empty string, and any
message formatted from it — the three-field local message as well as the
six-field forward message — ends in a space carrying an empty final field
(whenever it fits the `snprintf` bound); normalization is total and never
rejects such input. -/
theorem c10_trailing_colon_empty_ip (s : CStr) :
    cleanIP (s ++ [':']) = [] ∧
    (∀ name user : CStr,
      name.length + user.length + 2 ≤ OS_MAXSTR - 1 →
      localMsg name user (cleanIP (s ++ [':'])) = name ++ ' ' :: user ++ [' ']) ∧
    (∀ location : CStr, ∀ locChar : Char, ∀ agentId name user : CStr,
      location.length + agentId.length + name.length + user.length + 6 ≤
        OS_MAXSTR - 1 →
      forwardMsg location locChar agentId name user (cleanIP (s ++ [':'])) =
        location ++ ' ' :: locChar :: ' ' :: agentId ++ ' ' :: name ++
          ' ' :: user ++ [' ']) := by
  have h : cleanIP (s ++ [':']) = [] := by
    rw [cleanIP_append_single]
    simp
  refine ⟨h, fun name user hfit => ?_,
    fun location locChar agentId name user hfit => ?_⟩
  · rw [h]
    unfold localMsg snprintfTrunc
    apply List.take_of_length_le
    simp
    omega
  · rw [h]
    unfold forwardMsg snprintfTrunc
    apply List.take_of_length_le
    simp
    omega

/-- C10 witness: `"10.0.0.5:"` normalizes to the empty string, and both the
local and the forward message formatted from it carry an empty trailing
field after a final space. -/
theorem c10_witness :
    cleanIP ("10.0.0.5".toList ++ [':']) = [] ∧
    localMsg ("block-ip".toList) ("root".toList)
        (cleanIP ("10.0.0.5".toList ++ [':'])) = "block-ip root ".toList ∧
    forwardMsg ("srv1".toList) 'R' ("007".toList) ("block-ip".toList)
        ("".toList) (cleanIP ("10.0.0.5".toList ++ [':'])) =
      "srv1 R 007 block-ip  ".toList :=
  ⟨(c10_trailing_colon_empty_ip ("10.0.0.5".toList)).1,
   ((c10_trailing_colon_empty_ip ("10.0.0.5".toList)).2.1
     ("block-ip".toList) ("root".toList) (by decide)).trans (by decide),
   ((c10_trailing_colon_empty_ip ("10.0.0.5".toList)).2.2
     ("srv1".toList) 'R' ("007".toList) ("block-ip".toList) ("".toList)
     (by decide)).trans (by decide)⟩

end ARExec
